import Mathlib

/-!
Shallow embedding of the Recipe Dredger acquisition pipeline
(source: dredger.py) together with theorems checking the
natural-language specification against it.

Modelling conventions:
 - URLs, slugs, reasons and endpoints are `String`.
 - Timestamps are `Nat` seconds (ISO-8601 strings in the source).
 - The four durable collections of `StorageManager` are lists with
   set/dict semantics (`addSet`, `set_entry`, `List.lookup`).
 - Network effects are oracles: a response function maps an endpoint
   to `Option Nat` (`some status`, `none` = the request raised),
   verification and import outcomes in the driver loops are Boolean
   oracles per URL, and page fetch/parse/language detection are
   explicit functions.  The import embeddings additionally return the
   list of endpoints actually POSTed to, so that "no outbound write
   request" claims are statable.
-/

namespace Dredger

/-! ### Generic string helpers (used by the filters) -/

/-- Substring occurrence test on character lists: `containsSub hay needle`
is true iff `needle` occurs contiguously inside `hay` (Python `in`). -/
def containsSub (hay needle : List Char) : Bool :=
  match hay with
  | [] => needle.isEmpty
  | _ :: t => needle.isPrefixOf hay || containsSub t needle

/-- Suffix test on character lists (Python `str.endswith`). -/
def isSuffixLC (suf l : List Char) : Bool :=
  suf.reverse.isPrefixOf l.reverse

/-- Python `str.lower()` (ASCII view). -/
def lowerStr (s : String) : String :=
  String.mk (s.toList.map Char.toLower)

/-- Locate the first occurrence of the scheme separator and return what
follows it (used to model `urllib.parse.urlparse`). -/
def splitAtMarker : List Char → Option (List Char)
  | ':' :: '/' :: '/' :: rest => some rest
  | _ :: t => splitAtMarker t
  | [] => none

/-- Embeds `urlparse(url).path` for ordinary http(s) URLs: drop the scheme and
network location, cut the query and fragment. -/
def urlPath (url : String) : String :=
  let l := url.toList
  let rest :=
    match splitAtMarker l with
    | some r => r.dropWhile (fun c => !(c == '/'))
    | none => l
  String.mk (rest.takeWhile (fun c => !(c == '?') && !(c == '#')))

/-- The slug of a URL: `urlparse(url).path.strip("/").split("/")[-1].lower()`. -/
def slugOf (url : String) : String :=
  let p := (urlPath url).toList
  let stripped := ((p.dropWhile (fun c => c == '/')).reverse.dropWhile (fun c => c == '/')).reverse
  String.mk ((stripped.reverse.takeWhile (fun c => !(c == '/'))).reverse.map Char.toLower)

/-! ### Paranoid filters (LISTICLE_REGEX, BAD_KEYWORDS) -/

/-- The superlative/quantity words of `LISTICLE_REGEX`. -/
def LISTICLE_WORDS : List String :=
  ["best", "top", "must", "favorite", "easy", "healthy", "quick", "ways", "things"]

/-- Does `LISTICLE_REGEX` = `(\d+)-(best|top|...)` match at the head of
the character list?  The digit group is maximal-munch; since the regex
requires a hyphen right after the digits, greedy matching is exact. -/
def listicleAt (l : List Char) : Bool :=
  let ds := l.takeWhile (fun c => c.isDigit)
  let rest := l.dropWhile (fun c => c.isDigit)
  !ds.isEmpty &&
    (match rest with
     | '-' :: r => LISTICLE_WORDS.any (fun w => w.toList.isPrefixOf r)
     | _ => false)

/-- Embeds `LISTICLE_REGEX.search`: the pattern occurs at some position. -/
def listicleSearch : List Char → Bool
  | [] => false
  | c :: t => listicleAt (c :: t) || listicleSearch t

/-- BAD_KEYWORDS from dredger.py. -/
def BAD_KEYWORDS : List String :=
  ["roundup", "collection", "guide", "review", "giveaway", "shop", "store", "product"]

/-! ### Data model: persistent state store -/

/-- A retry-queue value: `{reason, attempts, last_attempt}`.
`last_attempt = none` models an absent or unparseable timestamp. -/
structure RetryInfo where
  reason : String
  attempts : Nat
  last_attempt : Option Nat
  deriving Repr, DecidableEq

/-- A sitemap cache value: `{sitemap_url, urls, timestamp}`. -/
structure SitemapCacheEntry where
  sitemap_url : String
  urls : List String
  timestamp : Nat
  deriving Repr, DecidableEq

/-- Per-site observability counters (dataclass SiteStats). -/
structure SiteStats where
  site_url : String
  recipes_found : Nat
  recipes_imported : Nat
  recipes_rejected : Nat
  errors : Nat
  last_run : Option Nat
  deriving Repr, DecidableEq

/-- In-memory state of `StorageManager`: the four durable collections
plus the per-site stats map and the flush change counter. -/
structure StorageManager where
  rejects : List String
  imported : List String
  retry_queue : List (String × RetryInfo)
  stats : List (String × SiteStats)
  sitemap_cache : List (String × SitemapCacheEntry)
  changes_since_flush : Nat
  deriving Repr, DecidableEq

def FLUSH_THRESHOLD : Nat := 50

def CACHE_EXPIRY_SECONDS : Nat := 7 * 86400

/-- Embeds `set.add`: membership-preserving insertion. -/
def addSet (l : List String) (u : String) : List String :=
  if u ∈ l then l else l ++ [u]

/-- Python dict assignment `d[k] = v` on an association list: replace
the entry for `k` in place, or append a fresh one. -/
def set_entry {β : Type} : List (String × β) → String → β → List (String × β)
  | [], url, v => [(url, v)]
  | p :: rest, url, v =>
    if p.1 = url then (url, v) :: rest else p :: set_entry rest url v

/-- Embeds `_auto_flush` after one mutation: bump the change counter; at the
threshold, `flush_all` persists and resets it (persistence itself is
I/O and leaves the in-memory collections unchanged). -/
def bump_flush (s : StorageManager) : StorageManager :=
  if FLUSH_THRESHOLD ≤ s.changes_since_flush + 1 then { s with changes_since_flush := 0 }
  else { s with changes_since_flush := s.changes_since_flush + 1 }

/-- Embeds `StorageManager.add_imported`. -/
def add_imported (s : StorageManager) (url : String) : StorageManager :=
  bump_flush { s with imported := addSet s.imported url }

/-- Embeds `StorageManager.add_reject`. -/
def add_reject (s : StorageManager) (url : String) : StorageManager :=
  bump_flush { s with rejects := addSet s.rejects url }

/-- Embeds `StorageManager.add_retry`: unconditionally writes
`{reason, attempts: 0, last_attempt: now}` for the URL. -/
def add_retry (s : StorageManager) (url reason : String) (now : Nat) : StorageManager :=
  bump_flush { s with retry_queue := set_entry s.retry_queue url ⟨reason, 0, some now⟩ }

/-- Embeds `StorageManager.update_stats`. -/
def update_stats (s : StorageManager) (site : String) (st : SiteStats) : StorageManager :=
  bump_flush { s with stats := set_entry s.stats site st }

/-- Embeds `StorageManager.cache_sitemap`. -/
def cache_sitemap (s : StorageManager) (site sitemap_url : String) (urls : List String)
    (now : Nat) : StorageManager :=
  bump_flush { s with sitemap_cache := set_entry s.sitemap_cache site ⟨sitemap_url, urls, now⟩ }

/-- Embeds `StorageManager.get_cached_sitemap`: an entry older than the expiry
is treated as absent. -/
def get_cached_sitemap (s : StorageManager) (site : String) (now : Nat) :
    Option SitemapCacheEntry :=
  match List.lookup site s.sitemap_cache with
  | none => none
  | some e => if CACHE_EXPIRY_SECONDS < now - e.timestamp then none else some e

/-- Embeds `StorageManager.flush_all` (in-memory effect: counter reset). -/
def flush_all (s : StorageManager) : StorageManager :=
  { s with changes_since_flush := 0 }

/-- The spec invariant: no URL is in both Imported and Rejected. -/
def DisjointSets (s : StorageManager) : Prop :=
  ∀ u : String, u ∈ s.imported → u ∉ s.rejects

/-! ### Content verifier (RecipeVerifier) -/

/-- Structured rejection reasons produced by `is_paranoid_skip`
(the source returns the rendered strings below). -/
inductive SkipReason where
  | listicleSlug (slug : String)
  | badKeyword (kw : String)
  | listicleTitle
  deriving Repr, DecidableEq

/-- The reason strings of the source. -/
def renderSkipReason : SkipReason → String
  | .listicleSlug slug => "Listicle detected: " ++ slug
  | .badKeyword kw => "Bad keyword: " ++ kw
  | .listicleTitle => "Listicle title"

/-- The parsed document (BeautifulSoup result) as far as the verifier
inspects it: the page title, whether some element carries one of the
KNOWN_RECIPE_CLASSES, and the visible text (`soup.get_text`). -/
structure PageDoc where
  title : Option String
  hasRecipeClass : Bool
  text : String
  deriving Repr, DecidableEq

/-- Embeds `RecipeVerifier.is_paranoid_skip`: listicle slug pattern first, then
the bad-keyword list (first hit in list order), then the title check
(only when a parsed document is supplied). -/
def is_paranoid_skip (url : String) (doc : Option PageDoc) : Option SkipReason :=
  let slug := slugOf url
  if listicleSearch slug.toList then some (.listicleSlug slug)
  else
    match BAD_KEYWORDS.find? (fun kw => containsSub slug.toList kw.toList) with
    | some kw => some (.badKeyword kw)
    | none =>
      match doc with
      | some d =>
        let title := lowerStr (d.title.getD "")
        if containsSub title.toList "best recipes".toList ||
            containsSub title.toList "top 10".toList then some .listicleTitle
        else none
      | none => none

/-- The raw-body structured-data check of `verify_recipe`. -/
def hasRecipeMarker (body : String) : Bool :=
  containsSub body.toList "\"@type\":\"Recipe\"".toList ||
    containsSub body.toList "\"@type\": \"Recipe\"".toList

/-- A fetched page: HTTP status and raw body. -/
structure FetchResult where
  status : Nat
  body : String
  deriving Repr, DecidableEq

/-- Embeds `RecipeVerifier.verify_recipe`.
`fetch url = none` models a raised request; `parse` is the
deterministic BeautifulSoup projection of a body onto the fields the
verifier reads; `langFilter = none` models the empty LANGUAGE_FILTER;
`detectLang` is `langdetect.detect` (pure because DetectorFactory.seed
is fixed), `none` modelling a LangDetectException. -/
def verify_recipe (fetch : String → Option FetchResult) (parse : String → PageDoc)
    (langFilter : Option String) (detectLang : String → Option String) (url : String) :
    Bool × Option PageDoc × Option String :=
  match fetch url with
  | none => (false, none, some "Exception")
  | some r =>
    if r.status ≠ 200 then (false, none, some ("HTTP " ++ toString r.status))
    else
      let doc := parse r.body
      if hasRecipeMarker r.body || doc.hasRecipeClass then
        match is_paranoid_skip url (some doc) with
        | some reason => (false, some doc, some (renderSkipReason reason))
        | none =>
          match langFilter with
          | none => (true, some doc, none)
          | some lf =>
            let txt := doc.text.toList.take 1000
            if 50 < txt.length then
              match detectLang (String.mk txt) with
              | none => (true, some doc, none)
              | some dl =>
                if dl ≠ lf then
                  (false, some doc,
                    some ("Language mismatch: detected " ++ dl ++ ", want " ++ lf))
                else (true, some doc, none)
            else (true, some doc, none)
      else (false, some doc, some "No recipe detected")

/-! ### Sitemap garbage filter (SitemapCrawler.fetch_sitemap_urls) -/

def junk_extensions : List String :=
  [".jpg", ".jpeg", ".png", ".gif", ".webp", ".pdf", ".zip"]

def admin_substrings : List String :=
  ["/privacy-policy", "/contact", "/about", "/login", "/wp-content/", "/cdn-cgi/"]

/-- The condition under which the garbage filter drops a URL. -/
def is_garbage_url (u : String) : Bool :=
  junk_extensions.any (fun e => isSuffixLC e.toList (lowerStr u).toList) ||
    admin_substrings.any (fun x => containsSub (lowerStr u).toList x.toList)

/-- The garbage-filter loop over the raw `<loc>` URLs of a leaf
sitemap: drop binary/image extensions, drop administrative segments,
keep everything else in order. -/
def garbage_filter : List String → List String
  | [] => []
  | u :: rest =>
    if junk_extensions.any (fun e => isSuffixLC e.toList (lowerStr u).toList) then
      garbage_filter rest
    else if admin_substrings.any (fun x => containsSub (lowerStr u).toList x.toList) then
      garbage_filter rest
    else u :: garbage_filter rest

/-! ### Import dispatcher (ImportManager) -/

/-- Outcome of `import_to_mealie`: the returned pair, the memoized
working endpoint after the call, and the endpoints POSTed to. -/
structure MealieOutcome where
  ok : Bool
  reason : Option String
  endpoint_memo : Option String
  posted : List String
  deriving Repr, DecidableEq

/-- Outcome of `import_to_tandoor`. -/
structure TandoorOutcome where
  ok : Bool
  reason : Option String
  posted : List String
  deriving Repr, DecidableEq

def mealieEndpointNew : String := "/api/recipes/create/url"

def mealieEndpointOld : String := "/api/recipes/create-url"

/-- Candidate endpoints in fixed preference order (newest first). -/
def mealieEndpoints : List String := [mealieEndpointNew, mealieEndpointOld]

def tandoorEndpoint : String := "/api/recipe/import-url/"

/-- The endpoint loop of `import_to_mealie`: POST to each candidate in
turn; 404/405 or an exception moves on to the next candidate; the
first endpoint that returns any other status is memoized and decides
the outcome (200/201 imported, 409 duplicate-as-success, otherwise
failure with the status as reason). -/
def mealie_try (resp : String → Option Nat) (lastErr : Option String)
    (we : Option String) (posted : List String) : List String → MealieOutcome
  | [] => ⟨false, some ("All API attempts failed. Last error: " ++ lastErr.getD "None"),
      we, posted⟩
  | e :: rest =>
    match resp e with
    | none => mealie_try resp (some "exception") we (posted ++ [e]) rest
    | some code =>
      if code = 404 ∨ code = 405 then
        mealie_try resp (some ("HTTP " ++ toString code ++ " on " ++ e)) we
          (posted ++ [e]) rest
      else
        let weNew := match we with
          | none => some e
          | some w => some w
        if code = 200 ∨ code = 201 then ⟨true, none, weNew, posted ++ [e]⟩
        else if code = 409 then ⟨true, none, weNew, posted ++ [e]⟩
        else ⟨false, some ("HTTP " ++ toString code), weNew, posted ++ [e]⟩

/-- Embeds `ImportManager.import_to_mealie`.  `we` is the memoized
`working_endpoint` at call time; `resp e` is the backend response to
POSTing the URL at endpoint `e`.  In dry-run mode nothing is POSTed
and the call unconditionally succeeds. -/
def import_to_mealie (dry_run : Bool) (we : Option String)
    (resp : String → Option Nat) : MealieOutcome :=
  if dry_run then ⟨true, none, we, []⟩
  else
    let endpoints := match we with
      | some e => [e]
      | none => mealieEndpoints
    mealie_try resp none we [] endpoints

/-- Embeds `ImportManager.import_to_tandoor`: a single POST; 200/201 succeed,
anything else fails with the status as reason. -/
def import_to_tandoor (dry_run : Bool) (resp : Option Nat) : TandoorOutcome :=
  if dry_run then ⟨true, none, []⟩
  else
    match resp with
    | none => ⟨false, some "exception", [tandoorEndpoint]⟩
    | some code =>
      if code = 200 ∨ code = 201 then ⟨true, none, [tandoorEndpoint]⟩
      else ⟨false, some ("HTTP " ++ toString code), [tandoorEndpoint]⟩

/-! ### Retry coordinator (process_retry_queue) -/

def MAX_RETRY_ATTEMPTS : Nat := 3

def MIN_RETRY_INTERVAL_SECONDS : Nat := 3600

/-- Accumulator of the scan pass over the retry queue. -/
structure RetryScan where
  storage : StorageManager
  completed : List String
  eligible : List String
  deriving Repr

/-- One entry of the scan pass: entries at the attempt budget are
rejected immediately (bypassing re-evaluation, regardless of
cooldown); entries still inside their cooldown are left untouched;
everything else becomes eligible. -/
def retry_scan_step (now : Nat) (acc : RetryScan) (p : String × RetryInfo) : RetryScan :=
  if MAX_RETRY_ATTEMPTS ≤ p.2.attempts then
    { acc with storage := add_reject acc.storage p.1, completed := acc.completed ++ [p.1] }
  else
    match p.2.last_attempt with
    | some t => if now - t < MIN_RETRY_INTERVAL_SECONDS then acc
        else { acc with eligible := acc.eligible ++ [p.1] }
    | none => { acc with eligible := acc.eligible ++ [p.1] }

/-- In-place bump of a pending entry after a failed re-import:
`attempts += 1`, `last_attempt = now`. -/
def bump_retry (s : StorageManager) (url : String) (now : Nat) : StorageManager :=
  let q := s.retry_queue.map
    (fun p => if p.1 = url then (p.1, ⟨p.2.reason, p.2.attempts + 1, some now⟩) else p)
  { s with retry_queue := q }

/-- Accumulator of the execution pass over the eligible URLs. -/
structure RetryExec where
  storage : StorageManager
  imported_count : Nat
  completed : List String
  deriving Repr

/-- One eligible URL: re-verify; non-recipes become permanent rejects,
verified-and-imported URLs are marked imported, failed imports are
re-queued with a bumped attempt count. -/
def retry_exec_step (verify importOk : String → Bool) (now : Nat)
    (acc : RetryExec) (url : String) : RetryExec :=
  if verify url then
    if importOk url then
      ⟨add_imported acc.storage url, acc.imported_count + 1, acc.completed ++ [url]⟩
    else ⟨bump_retry acc.storage url now, acc.imported_count, acc.completed⟩
  else ⟨add_reject acc.storage url, acc.imported_count, acc.completed ++ [url]⟩

/-- Result of one retry pass.  `eligible` is exactly the list of URLs
on which the Verifier (and possibly the Dispatcher) is re-run. -/
structure RetryPassResult where
  storage : StorageManager
  imported_count : Nat
  eligible : List String
  deriving Repr

/-- Embeds `process_retry_queue`: scan the queue (with a stable view of what
was pending at the start), re-evaluate the eligible entries, and only
then remove every resolved URL from the queue. -/
def process_retry_queue (s : StorageManager) (verify importOk : String → Bool)
    (now : Nat) : RetryPassResult :=
  if s.retry_queue.isEmpty then ⟨s, 0, []⟩
  else
    let scan := s.retry_queue.foldl (retry_scan_step now) ⟨s, [], []⟩
    let exec := scan.eligible.foldl (retry_exec_step verify importOk now)
      ⟨scan.storage, 0, scan.completed⟩
    let q := exec.storage.retry_queue.filter (fun p => ¬ p.1 ∈ exec.completed)
    ⟨{ exec.storage with retry_queue := q }, exec.imported_count, scan.eligible⟩

/-! ### Library sync and the main per-site candidate loop -/

/-- Python `url.startswith('http')` (also false for the empty string,
matching the `if url and url.startswith(...)` guard). -/
def startsWithHttp (u : String) : Bool :=
  "http".toList.isPrefixOf u.toList

/-- Embeds `sync_existing_library`: every http(s) URL reported by the backend
library is inserted directly into the Imported set. -/
def sync_existing_library (s : StorageManager) (lib : List String) : StorageManager :=
  lib.foldl
    (fun st u => if startsWithHttp u then { st with imported := addSet st.imported u }
      else st) s

/-- Per-site counters of the main loop (`site_stats`). -/
structure SiteCounters where
  imported : Nat
  rejected : Nat
  errors : Nat
  deriving Repr, DecidableEq

/-- Result of the per-site candidate loop.  `verified` is the list of
URLs on which `verify_recipe` was invoked (instrumentation). -/
structure LoopResult where
  storage : StorageManager
  imported_count : Nat
  counters : SiteCounters
  verified : List String
  deriving Repr

/-- The per-candidate loop of `main` (dredger.py lines 891-921): stop
at the per-site target; skip URLs already imported or rejected; verify
the rest; import successes are marked imported, import failures only
increment the error counter, non-recipes are marked rejected. -/
def candidate_loop (verify importOk : String → Bool) (target : Nat) :
    StorageManager → Nat → SiteCounters → List String → LoopResult
  | s, count, stats, [] => ⟨s, count, stats, []⟩
  | s, count, stats, url :: rest =>
    if target ≤ count then ⟨s, count, stats, []⟩
    else if url ∈ s.imported ∨ url ∈ s.rejects then
      candidate_loop verify importOk target s count stats rest
    else if verify url then
      if importOk url then
        let r := candidate_loop verify importOk target (add_imported s url) (count + 1)
          { stats with imported := stats.imported + 1 } rest
        { r with verified := url :: r.verified }
      else
        let r := candidate_loop verify importOk target s count
          { stats with errors := stats.errors + 1 } rest
        { r with verified := url :: r.verified }
    else
      let r := candidate_loop verify importOk target (add_reject s url) count
        { stats with rejected := stats.rejected + 1 } rest
      { r with verified := url :: r.verified }

/-- The per-site outer loop of `main`: run the candidate loop on each
site in turn and flush at the end of each non-empty site. -/
def run_sites (verify importOk : String → Bool) (target : Nat)
    (s : StorageManager) (sites : List (List String)) : StorageManager :=
  sites.foldl
    (fun st cands =>
      if cands.isEmpty then st
      else flush_all (candidate_loop verify importOk target st 0 ⟨0, 0, 0⟩ cands).storage)
    s

/-- The state of the store after the first two stages of a run of
`main`: library sync followed by the retry pass. -/
def pipeline_after_retry (s : StorageManager) (lib : List String)
    (v i : String → Bool) (now : Nat) : StorageManager :=
  (process_retry_queue (sync_existing_library s lib) v i now).storage

/-! ### Basic lemmas about the store operations -/

@[simp] theorem bump_flush_rejects (s : StorageManager) : (bump_flush s).rejects = s.rejects := by
  unfold bump_flush; split <;> rfl

@[simp] theorem bump_flush_imported (s : StorageManager) :
    (bump_flush s).imported = s.imported := by
  unfold bump_flush; split <;> rfl

@[simp] theorem bump_flush_retry_queue (s : StorageManager) :
    (bump_flush s).retry_queue = s.retry_queue := by
  unfold bump_flush; split <;> rfl

@[simp] theorem add_imported_imported (s : StorageManager) (url : String) :
    (add_imported s url).imported = addSet s.imported url := by
  simp [add_imported]

@[simp] theorem add_imported_rejects (s : StorageManager) (url : String) :
    (add_imported s url).rejects = s.rejects := by
  simp [add_imported]

@[simp] theorem add_imported_retry_queue (s : StorageManager) (url : String) :
    (add_imported s url).retry_queue = s.retry_queue := by
  simp [add_imported]

@[simp] theorem add_reject_rejects (s : StorageManager) (url : String) :
    (add_reject s url).rejects = addSet s.rejects url := by
  simp [add_reject]

@[simp] theorem add_reject_imported (s : StorageManager) (url : String) :
    (add_reject s url).imported = s.imported := by
  simp [add_reject]

@[simp] theorem add_reject_retry_queue (s : StorageManager) (url : String) :
    (add_reject s url).retry_queue = s.retry_queue := by
  simp [add_reject]

@[simp] theorem bump_retry_imported (s : StorageManager) (url : String) (now : Nat) :
    (bump_retry s url now).imported = s.imported := rfl

@[simp] theorem bump_retry_rejects (s : StorageManager) (url : String) (now : Nat) :
    (bump_retry s url now).rejects = s.rejects := rfl

theorem mem_addSet {u v : String} {l : List String} :
    u ∈ addSet l v ↔ u = v ∨ u ∈ l := by
  unfold addSet
  split
  · rename_i hv
    constructor
    · exact fun h => Or.inr h
    · rintro (rfl | h)
      · exact hv
      · exact h
  · simp [List.mem_append, or_comm]

theorem mem_addSet_of_mem {u v : String} {l : List String} (h : u ∈ l) :
    u ∈ addSet l v := mem_addSet.mpr (Or.inr h)

theorem lookup_set_entry {β : Type} (q : List (String × β)) (url : String) (v : β) :
    List.lookup url (set_entry q url v) = some v := by
  induction q with
  | nil => simp [set_entry, List.lookup]
  | cons p rest ih =>
    by_cases h : p.1 = url
    · simp [set_entry, h, List.lookup]
    · have hne : (url == p.1) = false := by
        simp [beq_iff_eq]
        exact fun e => h e.symm
      simp [set_entry, h, List.lookup, hne, ih]

/-! ### Claim C10 — upsertRetry resets the attempt budget -/

/-- Claim C10: for every URL, the store upsert `add_retry` writes a
retry entry with `attempts = 0` and `last_attempt = now`, for every
prior state of the store — so an existing entry for that URL has its
accumulated attempt count discarded. -/
theorem c10_add_retry_resets_attempts (s : StorageManager) (url reason : String) (now : Nat) :
    List.lookup url (add_retry s url reason now).retry_queue =
      some ⟨reason, 0, some now⟩ := by
  simp only [add_retry, bump_flush_retry_queue]
  exact lookup_set_entry s.retry_queue url ⟨reason, 0, some now⟩

/-- Witness: upserting over an existing entry with two accumulated
attempts yields a fresh entry with `attempts = 0`. -/
theorem c10_add_retry_resets_attempts_witness :
    List.lookup "http://a/u"
      (add_retry ⟨[], [], [("http://a/u", ⟨"HTTP 500", 2, some 7⟩)], [], [], 0⟩
        "http://a/u" "HTTP 502" 9).retry_queue = some ⟨"HTTP 502", 0, some 9⟩ :=
  c10_add_retry_resets_attempts
    ⟨[], [], [("http://a/u", ⟨"HTTP 500", 2, some 7⟩)], [], [], 0⟩ "http://a/u" "HTTP 502" 9

/-! ### Claim C6 — dry-run issues no POST and reports success -/

/-- Claim C6: with dry-run enabled, neither backend dispatcher issues
any POST (the posted-endpoint trace is empty) and each per-backend
submission unconditionally returns success with no error reason. -/
theorem c6_dry_run_no_post (we : Option String) (resp : String → Option Nat)
    (respT : Option Nat) :
    import_to_mealie true we resp = ⟨true, none, we, []⟩ ∧
      import_to_tandoor true respT = ⟨true, none, []⟩ :=
  ⟨rfl, rfl⟩

/-! ### Claim C3 — import success statuses -/

/-- Counterexample to claim C3 ("for every enabled backend, success
iff 2xx or 409"): the Tandoor dispatcher treats a 409 response as a
failure with reason `HTTP 409`, and the Mealie dispatcher treats the
2xx status 204 as a failure. -/
theorem c3_counterexample :
    (import_to_tandoor false (some 409)).ok = false ∧
      (import_to_tandoor false (some 409)).reason = some "HTTP 409" ∧
      (import_to_mealie false none (fun _ => some 204)).ok = false :=
  ⟨rfl, rfl, rfl⟩

/-- Claim C3 as amended: once an endpoint answers with a definite
status that is not 404/405, a Mealie submission succeeds iff the
status is 200, 201 or 409; a Tandoor submission succeeds iff the
status is 200 or 201 (409 included in the failures); every failure
carries `HTTP <status>` as its reason. -/
theorem c3_amended_status_semantics :
    (∀ code : Nat, code ≠ 404 → code ≠ 405 →
      import_to_mealie false none (fun _ => some code) =
        if code = 200 ∨ code = 201 ∨ code = 409 then
          ⟨true, none, some mealieEndpointNew, [mealieEndpointNew]⟩
        else
          ⟨false, some ("HTTP " ++ toString code), some mealieEndpointNew,
            [mealieEndpointNew]⟩) ∧
    (∀ code : Nat,
      import_to_tandoor false (some code) =
        if code = 200 ∨ code = 201 then ⟨true, none, [tandoorEndpoint]⟩
        else ⟨false, some ("HTTP " ++ toString code), [tandoorEndpoint]⟩) := by
  constructor
  · intro code h4 h5
    have hn : ¬(code = 404 ∨ code = 405) := by
      rintro (h | h) <;> simp_all
    simp only [import_to_mealie, Bool.false_eq_true, if_false, mealieEndpoints, mealie_try,
      if_neg hn]
    split_ifs with h1 h2 h3 <;> simp_all
  · intro code
    simp only [import_to_tandoor, Bool.false_eq_true, if_false]

/-- Witness for the amended C3 at status 500: both dispatchers fail
with reason `HTTP 500`. -/
theorem c3_amended_witness :
    import_to_mealie false none (fun _ => some 500) =
        ⟨false, some ("HTTP " ++ toString 500), some mealieEndpointNew,
          [mealieEndpointNew]⟩ ∧
      import_to_tandoor false (some 500) =
        ⟨false, some ("HTTP " ++ toString 500), [tandoorEndpoint]⟩ := by
  constructor
  · have h := c3_amended_status_semantics.1 500 (by decide) (by decide)
    simpa using h
  · have h := c3_amended_status_semantics.2 500
    simpa using h

/-! ### Claim C4 — Mealie endpoint auto-detection and memoization -/

/-- Claim C4: with no memoized endpoint, the Mealie dispatcher POSTs
the candidates in the fixed order new-then-old, moving past the first
candidate exactly when it answers 404 or 405; the first candidate
returning a non-404/405 status is memoized; and with a memoized
endpoint, every call POSTs only that endpoint — the other candidate is
never probed.  (`resp` here is a total status function: every POST
receives a definite HTTP status.) -/
theorem c4_endpoint_autodetection :
    (∀ resp : String → Nat,
      (import_to_mealie false none (fun e => some (resp e))).posted =
        if resp mealieEndpointNew = 404 ∨ resp mealieEndpointNew = 405 then
          [mealieEndpointNew, mealieEndpointOld]
        else [mealieEndpointNew]) ∧
    (∀ resp : String → Nat,
      (import_to_mealie false none (fun e => some (resp e))).endpoint_memo =
        if ¬(resp mealieEndpointNew = 404 ∨ resp mealieEndpointNew = 405) then
          some mealieEndpointNew
        else if ¬(resp mealieEndpointOld = 404 ∨ resp mealieEndpointOld = 405) then
          some mealieEndpointOld
        else none) ∧
    (∀ (resp : String → Option Nat) (e : String),
      (import_to_mealie false (some e) resp).posted = [e]) := by
  refine ⟨fun resp => ?_, fun resp => ?_, fun resp e => ?_⟩
  · simp only [import_to_mealie, Bool.false_eq_true, if_false, mealieEndpoints, mealie_try]
    split_ifs <;> rfl
  · simp only [import_to_mealie, Bool.false_eq_true, if_false, mealieEndpoints, mealie_try]
    split_ifs <;> rfl
  · simp only [import_to_mealie, Bool.false_eq_true, if_false]
    cases hr : resp e with
    | none => simp [mealie_try, hr]
    | some code =>
      simp only [mealie_try, hr]
      split_ifs <;> rfl

/-! ### Claim C1 — import failures are not recorded in the retry queue -/

/-- Claim C1 evaluated at a failing input (code bug): starting from an
empty store, a candidate that verifies as a recipe and whose import
fails leaves the retry queue empty (no `add_retry` call exists in the
main loop), leaves the URL in neither the Imported nor the Rejected
set, and only increments the per-site error counter. -/
theorem c1_import_failure_not_queued :
    (candidate_loop (fun _ => true) (fun _ => false) 50
        ⟨[], [], [], [], [], 0⟩ 0 ⟨0, 0, 0⟩ ["http://a/r"]).storage.retry_queue = [] ∧
      (candidate_loop (fun _ => true) (fun _ => false) 50
        ⟨[], [], [], [], [], 0⟩ 0 ⟨0, 0, 0⟩ ["http://a/r"]).storage.imported = [] ∧
      (candidate_loop (fun _ => true) (fun _ => false) 50
        ⟨[], [], [], [], [], 0⟩ 0 ⟨0, 0, 0⟩ ["http://a/r"]).storage.rejects = [] ∧
      (candidate_loop (fun _ => true) (fun _ => false) 50
        ⟨[], [], [], [], [], 0⟩ 0 ⟨0, 0, 0⟩ ["http://a/r"]).counters.errors = 1 := by
  refine ⟨rfl, rfl, rfl, rfl⟩

/-! ### Claim C8 — the sitemap garbage filter -/

/-- Claim C8: the garbage filter keeps exactly the URLs that neither
end (case-insensitively) in one of the binary/image extensions nor
contain one of the administrative path segments, in their original
order; on the four-URL example of the spec it keeps exactly the last
two. -/
theorem c8_garbage_filter_spec :
    (∀ raw : List String, garbage_filter raw = raw.filter (fun u => !is_garbage_url u)) ∧
      garbage_filter ["https://x.com/a.jpg", "https://x.com/privacy-policy",
          "https://x.com/garlic-butter-shrimp", "https://x.com/one-pan-chicken"] =
        ["https://x.com/garlic-butter-shrimp", "https://x.com/one-pan-chicken"] := by
  constructor
  · intro raw
    induction raw with
    | nil => rfl
    | cons u rest ih =>
      simp only [garbage_filter, List.filter_cons, is_garbage_url, ih]
      cases h1 : (junk_extensions.any fun e => isSuffixLC e.toList (lowerStr u).toList) with
      | true => simp [h1]
      | false =>
        cases h2 : (admin_substrings.any fun x => containsSub (lowerStr u).toList x.toList) with
        | true => simp [h1, h2]
        | false => simp [h1, h2]
  · decide

/-! ### Claim C7 — listicle slug rejection -/

/-- Claim C7: the paranoid filter rejects a URL with the
listicle-detected reason exactly when `LISTICLE_REGEX` (a digit group
followed by a hyphen and one of the superlative/quantity words) occurs
in its slug; in particular `10-best-soups-for-winter` is rejected as a
listicle and `garlic-butter-shrimp` passes the paranoid filter. -/
theorem c7_listicle_rejection :
    (∀ (url : String) (doc : Option PageDoc),
      is_paranoid_skip url doc = some (SkipReason.listicleSlug (slugOf url)) ↔
        listicleSearch (slugOf url).toList = true) ∧
      is_paranoid_skip "https://e.com/10-best-soups-for-winter" none =
        some (SkipReason.listicleSlug "10-best-soups-for-winter") ∧
      is_paranoid_skip "https://e.com/garlic-butter-shrimp" none = none := by
  refine ⟨fun url doc => ?_, by decide, by decide⟩
  constructor
  · intro h
    simp only [is_paranoid_skip] at h
    by_cases hl : listicleSearch (slugOf url).toList = true
    · exact hl
    · exfalso
      rw [if_neg hl] at h
      rcases hf : BAD_KEYWORDS.find? (fun kw => containsSub (slugOf url).toList kw.toList)
        with _ | kw
      · rw [hf] at h
        cases doc with
        | none => simp at h
        | some d =>
          cases hti : (containsSub (lowerStr (d.title.getD "")).toList "best recipes".toList ||
              containsSub (lowerStr (d.title.getD "")).toList "top 10".toList) <;>
            simp [hti] at h
      · rw [hf] at h
        simp at h
  · intro hl
    simp only [is_paranoid_skip]
    rw [if_pos hl]

/-- Witness for the universal part of C7: a slug matching the pattern
at a non-leading position is also rejected as a listicle. -/
theorem c7_listicle_witness :
    is_paranoid_skip "https://e.com/dinner-5-easy-ideas" none =
      some (SkipReason.listicleSlug "dinner-5-easy-ideas") :=
  (c7_listicle_rejection.1 "https://e.com/dinner-5-easy-ideas" none).mpr (by decide)

/-! ### Lemmas about the retry scan pass -/

theorem retry_scan_step_imported (now : Nat) (acc : RetryScan) (p : String × RetryInfo) :
    (retry_scan_step now acc p).storage.imported = acc.storage.imported := by
  unfold retry_scan_step
  split
  · simp
  · split
    · split <;> rfl
    · rfl

theorem retry_scan_step_queue (now : Nat) (acc : RetryScan) (p : String × RetryInfo) :
    (retry_scan_step now acc p).storage.retry_queue = acc.storage.retry_queue := by
  unfold retry_scan_step
  split
  · simp
  · split
    · split <;> rfl
    · rfl

theorem retry_scan_step_rejects_mono {u : String} (now : Nat) (acc : RetryScan)
    (p : String × RetryInfo) (h : u ∈ acc.storage.rejects) :
    u ∈ (retry_scan_step now acc p).storage.rejects := by
  unfold retry_scan_step
  split
  · simpa using mem_addSet_of_mem h
  · split
    · split <;> exact h
    · exact h

theorem retry_scan_step_completed_mono {u : String} (now : Nat) (acc : RetryScan)
    (p : String × RetryInfo) (h : u ∈ acc.completed) :
    u ∈ (retry_scan_step now acc p).completed := by
  unfold retry_scan_step
  split
  · exact List.mem_append_left _ h
  · split
    · split <;> exact h
    · exact h

theorem retry_scan_step_rejects_sub {u : String} (now : Nat) (acc : RetryScan)
    (p : String × RetryInfo) (h : u ∈ (retry_scan_step now acc p).storage.rejects) :
    u ∈ acc.storage.rejects ∨ (u = p.1 ∧ MAX_RETRY_ATTEMPTS ≤ p.2.attempts) := by
  unfold retry_scan_step at h
  split at h
  · rename_i hc
    simp only [add_reject_rejects] at h
    rcases mem_addSet.mp h with rfl | h'
    · exact Or.inr ⟨rfl, hc⟩
    · exact Or.inl h'
  · split at h
    · split at h <;> exact Or.inl h
    · exact Or.inl h

theorem retry_scan_step_eligible_sub {u : String} (now : Nat) (acc : RetryScan)
    (p : String × RetryInfo) (h : u ∈ (retry_scan_step now acc p).eligible) :
    u ∈ acc.eligible ∨ (u = p.1 ∧ p.2.attempts < MAX_RETRY_ATTEMPTS) := by
  unfold retry_scan_step at h
  split at h
  · exact Or.inl h
  · rename_i hc
    have hlt : p.2.attempts < MAX_RETRY_ATTEMPTS := Nat.lt_of_not_le hc
    split at h
    · split at h
      · exact Or.inl h
      · rcases List.mem_append.mp h with h' | h'
        · exact Or.inl h'
        · exact Or.inr ⟨by simpa using h', hlt⟩
    · rcases List.mem_append.mp h with h' | h'
      · exact Or.inl h'
      · exact Or.inr ⟨by simpa using h', hlt⟩

theorem scan_foldl_imported (now : Nat) (q : List (String × RetryInfo)) (acc : RetryScan) :
    (q.foldl (retry_scan_step now) acc).storage.imported = acc.storage.imported := by
  induction q generalizing acc with
  | nil => rfl
  | cons p t ih => rw [List.foldl_cons, ih, retry_scan_step_imported]

theorem scan_foldl_queue (now : Nat) (q : List (String × RetryInfo)) (acc : RetryScan) :
    (q.foldl (retry_scan_step now) acc).storage.retry_queue = acc.storage.retry_queue := by
  induction q generalizing acc with
  | nil => rfl
  | cons p t ih => rw [List.foldl_cons, ih, retry_scan_step_queue]

theorem scan_foldl_rejects_mono {u : String} (now : Nat) (q : List (String × RetryInfo))
    (acc : RetryScan) (h : u ∈ acc.storage.rejects) :
    u ∈ (q.foldl (retry_scan_step now) acc).storage.rejects := by
  induction q generalizing acc with
  | nil => exact h
  | cons p t ih =>
    rw [List.foldl_cons]
    exact ih _ (retry_scan_step_rejects_mono now acc p h)

theorem scan_foldl_completed_mono {u : String} (now : Nat) (q : List (String × RetryInfo))
    (acc : RetryScan) (h : u ∈ acc.completed) :
    u ∈ (q.foldl (retry_scan_step now) acc).completed := by
  induction q generalizing acc with
  | nil => exact h
  | cons p t ih =>
    rw [List.foldl_cons]
    exact ih _ (retry_scan_step_completed_mono now acc p h)

theorem scan_foldl_rejects_sub {u : String} (now : Nat) (q : List (String × RetryInfo))
    (acc : RetryScan) (h : u ∈ (q.foldl (retry_scan_step now) acc).storage.rejects) :
    u ∈ acc.storage.rejects ∨
      ∃ inf, (u, inf) ∈ q ∧ MAX_RETRY_ATTEMPTS ≤ inf.attempts := by
  induction q generalizing acc with
  | nil => exact Or.inl h
  | cons p t ih =>
    rw [List.foldl_cons] at h
    rcases ih _ h with h' | ⟨inf, hm, ha⟩
    · rcases retry_scan_step_rejects_sub now acc p h' with h'' | ⟨rfl, ha⟩
      · exact Or.inl h''
      · exact Or.inr ⟨p.2, List.mem_cons_self _ _, ha⟩
    · exact Or.inr ⟨inf, List.mem_cons_of_mem _ hm, ha⟩

theorem scan_foldl_eligible_sub {u : String} (now : Nat) (q : List (String × RetryInfo))
    (acc : RetryScan) (h : u ∈ (q.foldl (retry_scan_step now) acc).eligible) :
    u ∈ acc.eligible ∨ ∃ inf, (u, inf) ∈ q ∧ inf.attempts < MAX_RETRY_ATTEMPTS := by
  induction q generalizing acc with
  | nil => exact Or.inl h
  | cons p t ih =>
    rw [List.foldl_cons] at h
    rcases ih _ h with h' | ⟨inf, hm, ha⟩
    · rcases retry_scan_step_eligible_sub now acc p h' with h'' | ⟨rfl, ha⟩
      · exact Or.inl h''
      · exact Or.inr ⟨p.2, List.mem_cons_self _ _, ha⟩
    · exact Or.inr ⟨inf, List.mem_cons_of_mem _ hm, ha⟩

theorem scan_foldl_exhausted {u : String} {inf : RetryInfo} (now : Nat)
    (q : List (String × RetryInfo)) (acc : RetryScan) (hm : (u, inf) ∈ q)
    (ha : MAX_RETRY_ATTEMPTS ≤ inf.attempts) :
    u ∈ (q.foldl (retry_scan_step now) acc).completed ∧
      u ∈ (q.foldl (retry_scan_step now) acc).storage.rejects := by
  induction q generalizing acc with
  | nil => cases hm
  | cons p t ih =>
    rw [List.foldl_cons]
    rcases List.mem_cons.mp hm with heq | hm'
    · have hstep : u ∈ (retry_scan_step now acc p).completed ∧
          u ∈ (retry_scan_step now acc p).storage.rejects := by
        unfold retry_scan_step
        rw [if_pos (by rw [← heq]; exact ha)]
        constructor
        · exact List.mem_append_right _ (by simp [← heq])
        · simp only [add_reject_rejects]
          exact mem_addSet.mpr (Or.inl (by rw [← heq]))
      exact ⟨scan_foldl_completed_mono now t _ hstep.1,
        scan_foldl_rejects_mono now t _ hstep.2⟩
    · exact ih _ hm'

theorem scan_foldl_eligible_append (now : Nat) (q : List (String × RetryInfo))
    (acc : RetryScan) :
    ∃ ex, (q.foldl (retry_scan_step now) acc).eligible = acc.eligible ++ ex ∧
      ex.Sublist (q.map Prod.fst) := by
  induction q generalizing acc with
  | nil => exact ⟨[], by simp⟩
  | cons p t ih =>
    rw [List.foldl_cons]
    have hstep : (retry_scan_step now acc p).eligible = acc.eligible ∨
        (retry_scan_step now acc p).eligible = acc.eligible ++ [p.1] := by
      unfold retry_scan_step
      split
      · exact Or.inl rfl
      · split
        · split
          · exact Or.inl rfl
          · exact Or.inr rfl
        · exact Or.inr rfl
    obtain ⟨ex, hex, hsub⟩ := ih (retry_scan_step now acc p)
    rcases hstep with he | he
    · exact ⟨ex, by rw [hex, he], hsub.cons _⟩
    · refine ⟨p.1 :: ex, ?_, hsub.cons₂ _⟩
      rw [hex, he, List.append_assoc]
      rfl

/-! ### Lemmas about the retry execution pass -/

theorem retry_exec_step_rejects_mono {u : String} (v i : String → Bool) (now : Nat)
    (acc : RetryExec) (url : String) (h : u ∈ acc.storage.rejects) :
    u ∈ (retry_exec_step v i now acc url).storage.rejects := by
  unfold retry_exec_step
  split
  · split
    · simpa using h
    · simpa using h
  · simp only [add_reject_rejects]
    exact mem_addSet_of_mem h

theorem retry_exec_step_imported_mono {u : String} (v i : String → Bool) (now : Nat)
    (acc : RetryExec) (url : String) (h : u ∈ acc.storage.imported) :
    u ∈ (retry_exec_step v i now acc url).storage.imported := by
  unfold retry_exec_step
  split
  · split
    · simp only [add_imported_imported]
      exact mem_addSet_of_mem h
    · simpa using h
  · simpa using h

theorem retry_exec_step_completed_mono {u : String} (v i : String → Bool) (now : Nat)
    (acc : RetryExec) (url : String) (h : u ∈ acc.completed) :
    u ∈ (retry_exec_step v i now acc url).completed := by
  unfold retry_exec_step
  split
  · split
    · exact List.mem_append_left _ h
    · exact h
  · exact List.mem_append_left _ h

theorem retry_exec_step_rejects_sub {u : String} (v i : String → Bool) (now : Nat)
    (acc : RetryExec) (url : String)
    (h : u ∈ (retry_exec_step v i now acc url).storage.rejects) :
    u ∈ acc.storage.rejects ∨ u = url := by
  unfold retry_exec_step at h
  split at h
  · split at h
    · exact Or.inl (by simpa using h)
    · exact Or.inl (by simpa using h)
  · simp only [add_reject_rejects] at h
    rcases mem_addSet.mp h with rfl | h'
    · exact Or.inr rfl
    · exact Or.inl h'

theorem retry_exec_step_imported_sub {u : String} (v i : String → Bool) (now : Nat)
    (acc : RetryExec) (url : String)
    (h : u ∈ (retry_exec_step v i now acc url).storage.imported) :
    u ∈ acc.storage.imported ∨ u = url := by
  unfold retry_exec_step at h
  split at h
  · split at h
    · simp only [add_imported_imported] at h
      rcases mem_addSet.mp h with rfl | h'
      · exact Or.inr rfl
      · exact Or.inl h'
    · exact Or.inl (by simpa using h)
  · exact Or.inl (by simpa using h)

theorem exec_foldl_rejects_mono {u : String} (v i : String → Bool) (now : Nat)
    (e : List String) (acc : RetryExec) (h : u ∈ acc.storage.rejects) :
    u ∈ (e.foldl (retry_exec_step v i now) acc).storage.rejects := by
  induction e generalizing acc with
  | nil => exact h
  | cons url t ih =>
    rw [List.foldl_cons]
    exact ih _ (retry_exec_step_rejects_mono v i now acc url h)

theorem exec_foldl_completed_mono {u : String} (v i : String → Bool) (now : Nat)
    (e : List String) (acc : RetryExec) (h : u ∈ acc.completed) :
    u ∈ (e.foldl (retry_exec_step v i now) acc).completed := by
  induction e generalizing acc with
  | nil => exact h
  | cons url t ih =>
    rw [List.foldl_cons]
    exact ih _ (retry_exec_step_completed_mono v i now acc url h)

theorem exec_foldl_disjoint (v i : String → Bool) (now : Nat) (e : List String)
    (acc : RetryExec) (hd : DisjointSets acc.storage) (hn : e.Nodup)
    (he : ∀ u ∈ e, u ∉ acc.storage.imported ∧ u ∉ acc.storage.rejects) :
    DisjointSets (e.foldl (retry_exec_step v i now) acc).storage := by
  induction e generalizing acc with
  | nil => exact hd
  | cons url t ih =>
    rw [List.foldl_cons]
    obtain ⟨hnu, hnt⟩ := List.nodup_cons.mp hn
    obtain ⟨hui, hur⟩ := he url (List.mem_cons_self _ _)
    have hnotboth : ¬(url ∈ (retry_exec_step v i now acc url).storage.imported ∧
        url ∈ (retry_exec_step v i now acc url).storage.rejects) := by
      unfold retry_exec_step
      split
      · split
        · rintro ⟨-, h2⟩
          exact hur (by simpa using h2)
        · rintro ⟨h1, -⟩
          exact hui (by simpa using h1)
      · rintro ⟨h1, -⟩
        exact hui (by simpa using h1)
    refine ih _ ?_ hnt ?_
    · intro w hw hw2
      by_cases hweq : w = url
      · subst hweq
        exact hnotboth ⟨hw, hw2⟩
      · rcases retry_exec_step_imported_sub v i now acc url hw with hw' | h1
        · rcases retry_exec_step_rejects_sub v i now acc url hw2 with hw2' | h2
          · exact hd w hw' hw2'
          · exact hweq h2
        · exact hweq h1
    · intro w hw
      have hne : w ≠ url := fun h => hnu (h ▸ hw)
      obtain ⟨hwi, hwr⟩ := he w (List.mem_cons_of_mem _ hw)
      constructor
      · intro hmem
        rcases retry_exec_step_imported_sub v i now acc url hmem with h' | h'
        · exact hwi h'
        · exact hne h'
      · intro hmem
        rcases retry_exec_step_rejects_sub v i now acc url hmem with h' | h'
        · exact hwr h'
        · exact hne h'

/-- Keys of a Nodup-keyed association list determine their values. -/
theorem nodup_keys_unique {β : Type} {q : List (String × β)}
    (h : (q.map Prod.fst).Nodup) {u : String} {a b : β}
    (ha : (u, a) ∈ q) (hb : (u, b) ∈ q) : a = b := by
  induction q with
  | nil => cases ha
  | cons p t ih =>
    rw [List.map_cons, List.nodup_cons] at h
    rcases List.mem_cons.mp ha with ha' | ha' <;> rcases List.mem_cons.mp hb with hb' | hb'
    · rw [← ha'] at hb'
      exact (Prod.mk.injEq _ _ _ _ ▸ hb').2.symm
    · exfalso
      apply h.1
      rw [← ha']
      exact List.mem_map.mpr ⟨(u, b), hb', rfl⟩
    · exfalso
      apply h.1
      rw [← hb']
      exact List.mem_map.mpr ⟨(u, a), ha', rfl⟩
    · exact ih h.2 ha' hb'

theorem process_retry_queue_eq (s : StorageManager) (v i : String → Bool) (now : Nat)
    (h : s.retry_queue.isEmpty = false) :
    process_retry_queue s v i now =
      (let scan := s.retry_queue.foldl (retry_scan_step now) ⟨s, [], []⟩
       let exec := scan.eligible.foldl (retry_exec_step v i now)
         ⟨scan.storage, 0, scan.completed⟩
       let q := exec.storage.retry_queue.filter (fun p => ¬ p.1 ∈ exec.completed)
       ⟨{ exec.storage with retry_queue := q }, exec.imported_count, scan.eligible⟩) := by
  unfold process_retry_queue
  simp only [h, Bool.false_eq_true, if_false]

/-! ### Claim C5 — exhausted retry entries become permanent rejects -/

/-- Claim C5: a retry-queue entry whose attempt count has reached
`MAX_RETRY_ATTEMPTS = 3` is converted to a permanent rejection by the
next retry pass — the URL lands in the Rejected set and disappears
from the queue — and it is not re-evaluated: it never joins the
eligible list, which is exactly the set of URLs the pass re-verifies
and re-imports.  No constraint is placed on `last_attempt` or `now`,
so this holds regardless of how much cooldown has elapsed. -/
theorem c5_exhausted_entry_rejected (s : StorageManager) (verify importOk : String → Bool)
    (now : Nat) (url : String) (info : RetryInfo)
    (hmem : (url, info) ∈ s.retry_queue)
    (hatt : MAX_RETRY_ATTEMPTS ≤ info.attempts)
    (hnodup : (s.retry_queue.map Prod.fst).Nodup) :
    url ∈ (process_retry_queue s verify importOk now).storage.rejects ∧
      url ∉ ((process_retry_queue s verify importOk now).storage.retry_queue.map Prod.fst) ∧
      url ∉ (process_retry_queue s verify importOk now).eligible := by
  have hne : s.retry_queue.isEmpty = false := by
    cases hq : s.retry_queue with
    | nil => rw [hq] at hmem; cases hmem
    | cons a t => rfl
  rw [process_retry_queue_eq s verify importOk now hne]
  dsimp only
  have hscan := scan_foldl_exhausted now s.retry_queue
    (⟨s, [], []⟩ : RetryScan) hmem hatt
  have hcomp : url ∈ ((s.retry_queue.foldl (retry_scan_step now)
      ⟨s, [], []⟩).eligible.foldl (retry_exec_step verify importOk now)
        ⟨(s.retry_queue.foldl (retry_scan_step now) ⟨s, [], []⟩).storage, 0,
          (s.retry_queue.foldl (retry_scan_step now) ⟨s, [], []⟩).completed⟩).completed :=
    exec_foldl_completed_mono verify importOk now _ _ hscan.1
  refine ⟨?_, ?_, ?_⟩
  · exact exec_foldl_rejects_mono verify importOk now _ _ hscan.2
  · intro hin
    obtain ⟨p, hp, hpe⟩ := List.mem_map.mp hin
    have hfil := (List.mem_filter.mp hp).2
    have hnc : ¬ p.1 ∈ _ := of_decide_eq_true hfil
    exact hnc (hpe ▸ hcomp)
  · intro hin
    rcases scan_foldl_eligible_sub now s.retry_queue _ hin with h' | ⟨inf', hm', hlt⟩
    · cases h'
    · have heq : info = inf' := nodup_keys_unique hnodup hmem hm'
      rw [heq] at hatt
      exact Nat.not_le_of_lt hlt hatt

/-- Witness for C5: an entry with `attempts = 3` whose cooldown has not
remotely elapsed (`last_attempt = now`) is still rejected and dropped. -/
theorem c5_exhausted_entry_rejected_witness :
    "http://a/u" ∈ (process_retry_queue
        ⟨[], [], [("http://a/u", ⟨"HTTP 500", 3, some 100⟩)], [], [], 0⟩
        (fun _ => true) (fun _ => true) 100).storage.rejects ∧
      ¬ "http://a/u" ∈ ((process_retry_queue
        ⟨[], [], [("http://a/u", ⟨"HTTP 500", 3, some 100⟩)], [], [], 0⟩
        (fun _ => true) (fun _ => true) 100).storage.retry_queue.map Prod.fst) ∧
      ¬ "http://a/u" ∈ (process_retry_queue
        ⟨[], [], [("http://a/u", ⟨"HTTP 500", 3, some 100⟩)], [], [], 0⟩
        (fun _ => true) (fun _ => true) 100).eligible :=
  c5_exhausted_entry_rejected
    ⟨[], [], [("http://a/u", ⟨"HTTP 500", 3, some 100⟩)], [], [], 0⟩
    (fun _ => true) (fun _ => true) 100 "http://a/u" ⟨"HTTP 500", 3, some 100⟩
    (List.mem_singleton.mpr rfl) (by decide) (by simp)

/-! ### Lemmas about library sync -/

theorem sync_rejects_eq (s : StorageManager) (lib : List String) :
    (sync_existing_library s lib).rejects = s.rejects := by
  induction lib generalizing s with
  | nil => rfl
  | cons x t ih =>
    unfold sync_existing_library at ih ⊢
    rw [List.foldl_cons, ih]
    split <;> rfl

theorem sync_queue_eq (s : StorageManager) (lib : List String) :
    (sync_existing_library s lib).retry_queue = s.retry_queue := by
  induction lib generalizing s with
  | nil => rfl
  | cons x t ih =>
    unfold sync_existing_library at ih ⊢
    rw [List.foldl_cons, ih]
    split <;> rfl

theorem sync_imported_sub {u : String} (s : StorageManager) (lib : List String)
    (h : u ∈ (sync_existing_library s lib).imported) :
    u ∈ s.imported ∨ (u ∈ lib ∧ startsWithHttp u = true) := by
  induction lib generalizing s with
  | nil => exact Or.inl h
  | cons x t ih =>
    unfold sync_existing_library at h
    rw [List.foldl_cons] at h
    rcases ih _ h with h' | ⟨hm, hs⟩
    · by_cases hx : startsWithHttp x = true
      · rw [if_pos hx] at h'
        simp only at h'
        rcases mem_addSet.mp h' with rfl | h''
        · exact Or.inr ⟨List.mem_cons_self _ _, hx⟩
        · exact Or.inl h''
      · rw [if_neg hx] at h'
        exact Or.inl h'
    · exact Or.inr ⟨List.mem_cons_of_mem _ hm, hs⟩

theorem sync_disjoint (s : StorageManager) (lib : List String) (hd : DisjointSets s)
    (hlib : ∀ u ∈ lib, startsWithHttp u = true → u ∉ s.rejects) :
    DisjointSets (sync_existing_library s lib) := by
  intro u hu
  rw [sync_rejects_eq]
  rcases sync_imported_sub s lib hu with h' | ⟨hm, hs⟩
  · exact hd u h'
  · exact hlib u hm hs

/-! ### The retry pass preserves the Imported/Rejected disjointness -/

theorem retry_pass_disjoint (s : StorageManager) (v i : String → Bool) (now : Nat)
    (hd : DisjointSets s)
    (hnodup : (s.retry_queue.map Prod.fst).Nodup)
    (hkeys : ∀ k ∈ s.retry_queue.map Prod.fst, k ∉ s.imported ∧ k ∉ s.rejects) :
    DisjointSets (process_retry_queue s v i now).storage := by
  cases hq : s.retry_queue.isEmpty with
  | true =>
    unfold process_retry_queue
    rw [hq]
    exact hd
  | false =>
    rw [process_retry_queue_eq s v i now hq]
    dsimp only
    have hscan_imported := scan_foldl_imported now s.retry_queue (⟨s, [], []⟩ : RetryScan)
    have hscan_disjoint : DisjointSets (s.retry_queue.foldl (retry_scan_step now)
        ⟨s, [], []⟩).storage := by
      intro w hw hw2
      rw [hscan_imported] at hw
      rcases scan_foldl_rejects_sub now s.retry_queue _ hw2 with h' | ⟨inf, hm, -⟩
      · exact hd w hw h'
      · exact (hkeys w (List.mem_map.mpr ⟨(w, inf), hm, rfl⟩)).1 hw
    obtain ⟨ex, hex, hsub⟩ :=
      scan_foldl_eligible_append now s.retry_queue (⟨s, [], []⟩ : RetryScan)
    have heli_nodup : (s.retry_queue.foldl (retry_scan_step now) ⟨s, [], []⟩).eligible.Nodup := by
      rw [hex]
      simpa using hsub.nodup hnodup
    have hexec := exec_foldl_disjoint v i now
      (s.retry_queue.foldl (retry_scan_step now) ⟨s, [], []⟩).eligible
      ⟨(s.retry_queue.foldl (retry_scan_step now) ⟨s, [], []⟩).storage, 0,
        (s.retry_queue.foldl (retry_scan_step now) ⟨s, [], []⟩).completed⟩
      hscan_disjoint heli_nodup ?he
    · exact fun u hu => hexec u hu
    · intro u hu
      rcases scan_foldl_eligible_sub now s.retry_queue _ hu with h' | ⟨inf, hm, hlt⟩
      · cases h'
      · have hk := hkeys u (List.mem_map.mpr ⟨(u, inf), hm, rfl⟩)
        constructor
        · rw [hscan_imported]
          exact hk.1
        · intro hw
          rcases scan_foldl_rejects_sub now s.retry_queue _ hw with h' | ⟨inf', hm', ha'⟩
          · exact hk.2 h'
          · rw [nodup_keys_unique hnodup hm hm'] at hlt
            exact Nat.not_le_of_lt hlt ha'

/-! ### Lemmas about the main candidate loop -/

theorem candidate_loop_disjoint (v i : String → Bool) (target : Nat) (s : StorageManager)
    (count : Nat) (stats : SiteCounters) (cands : List String) (hd : DisjointSets s) :
    DisjointSets (candidate_loop v i target s count stats cands).storage := by
  induction cands generalizing s count stats with
  | nil => exact hd
  | cons url rest ih =>
    unfold candidate_loop
    split
    · exact hd
    · split
      · exact ih _ _ _ hd
      · rename_i hmem
        push_neg at hmem
        split
        · split
          · refine ih _ _ _ ?_
            intro w hw
            simp only [add_imported_imported, add_imported_rejects] at hw ⊢
            rcases mem_addSet.mp hw with rfl | hw'
            · exact hmem.2
            · exact hd w hw'
          · exact ih _ _ _ hd
        · refine ih _ _ _ ?_
          intro w hw
          simp only [add_reject_imported, add_reject_rejects] at hw ⊢
          intro hw2
          rcases mem_addSet.mp hw2 with rfl | hw2'
          · exact hmem.1 hw
          · exact hd w hw hw2'

theorem candidate_loop_imported_mono {u : String} (v i : String → Bool) (target : Nat)
    (s : StorageManager) (count : Nat) (stats : SiteCounters) (cands : List String)
    (h : u ∈ s.imported) :
    u ∈ (candidate_loop v i target s count stats cands).storage.imported := by
  induction cands generalizing s count stats with
  | nil => exact h
  | cons url rest ih =>
    unfold candidate_loop
    split
    · exact h
    · split
      · exact ih _ _ _ h
      · split
        · split
          · exact ih _ _ _ (by simpa using mem_addSet_of_mem h)
          · exact ih _ _ _ h
        · exact ih _ _ _ (by simpa using h)

theorem candidate_loop_rejects_mono {u : String} (v i : String → Bool) (target : Nat)
    (s : StorageManager) (count : Nat) (stats : SiteCounters) (cands : List String)
    (h : u ∈ s.rejects) :
    u ∈ (candidate_loop v i target s count stats cands).storage.rejects := by
  induction cands generalizing s count stats with
  | nil => exact h
  | cons url rest ih =>
    unfold candidate_loop
    split
    · exact h
    · split
      · exact ih _ _ _ h
      · split
        · split
          · exact ih _ _ _ (by simpa using h)
          · exact ih _ _ _ h
        · exact ih _ _ _ (by simpa using mem_addSet_of_mem h)

/-- Once a URL is in either set, the candidate loop never verifies it:
the membership guard skips it at its turn, and both sets only grow. -/
theorem candidate_loop_skip {u : String} (v i : String → Bool) (target : Nat)
    (s : StorageManager) (count : Nat) (stats : SiteCounters) (cands : List String)
    (h : u ∈ s.imported ∨ u ∈ s.rejects) :
    ¬ u ∈ (candidate_loop v i target s count stats cands).verified := by
  induction cands generalizing s count stats with
  | nil => intro hv; cases hv
  | cons url rest ih =>
    unfold candidate_loop
    split
    · intro hv; cases hv
    · split
      · exact ih _ _ _ h
      · rename_i hmem
        push_neg at hmem
        have hne : u ≠ url := by
          rintro rfl
          rcases h with h' | h'
          · exact hmem.1 h'
          · exact hmem.2 h'
        split
        · split
          · intro hv
            rcases List.mem_cons.mp hv with rfl | hv'
            · exact hne rfl
            · refine ih _ _ _ ?_ hv'
              rcases h with h' | h'
              · exact Or.inl (by simpa using mem_addSet_of_mem h')
              · exact Or.inr (by simpa using h')
          · intro hv
            rcases List.mem_cons.mp hv with rfl | hv'
            · exact hne rfl
            · exact ih _ _ _ h hv'
        · intro hv
          rcases List.mem_cons.mp hv with rfl | hv'
          · exact hne rfl
          · refine ih _ _ _ ?_ hv'
            rcases h with h' | h'
            · exact Or.inl (by simpa using h')
            · exact Or.inr (by simpa using mem_addSet_of_mem h')

theorem run_sites_disjoint (v i : String → Bool) (target : Nat) (s : StorageManager)
    (sites : List (List String)) (hd : DisjointSets s) :
    DisjointSets (run_sites v i target s sites) := by
  induction sites generalizing s with
  | nil => exact hd
  | cons c t ih =>
    unfold run_sites
    rw [List.foldl_cons]
    refine ih _ ?_
    split
    · exact hd
    · exact candidate_loop_disjoint v i target s 0 ⟨0, 0, 0⟩ c hd

/-! ### Claim C2 — no URL in both sets, already-resolved URLs skipped -/

/-- Counterexample to claim C2 as stated: starting from a store whose
only content is a retry entry for `http://a/u` with an exhausted
attempt budget, the pipeline sequence library-sync-then-retry-pass
(exactly the order `main` runs them in) puts that URL in the Imported
set (sync reports it as already in the backend library) and then also
in the Rejected set (the retry pass converts the exhausted entry), so
the two sets are no longer disjoint. -/
theorem c2_counterexample :
    ¬ DisjointSets (pipeline_after_retry
        ⟨[], [], [("http://a/u", ⟨"HTTP 500", 3, some 0⟩)], [], [], 0⟩
        ["http://a/u"] (fun _ => true) (fun _ => true) 10) := by
  intro h
  exact h "http://a/u" (by decide) (by decide)

/-- Claim C2 as amended: provided library sync never reports a URL that
is already rejected, and no URL pending in the retry queue is
already imported, rejected, or about to be synced (as exhibited
by the counterexample), every stage of a run preserves the invariant —
the two sets are disjoint after library sync, after the retry pass,
and after every prefix of every site of the main candidate loop — and
a URL already in either set when a site is processed is never verified
or imported again by that candidate loop. -/
theorem c2_amended_invariant (s : StorageManager) (lib : List String)
    (v i : String → Bool) (now target : Nat) (sites : List (List String))
    (hd : DisjointSets s)
    (hlib : ∀ u ∈ lib, startsWithHttp u = true → u ∉ s.rejects)
    (hnodup : (s.retry_queue.map Prod.fst).Nodup)
    (hkeys : ∀ k ∈ s.retry_queue.map Prod.fst,
      k ∉ s.imported ∧ k ∉ s.rejects ∧ ¬(k ∈ lib ∧ startsWithHttp k = true)) :
    DisjointSets (sync_existing_library s lib) ∧
      DisjointSets (pipeline_after_retry s lib v i now) ∧
      (∀ n k : Nat, DisjointSets (candidate_loop v i target
        (run_sites v i target (pipeline_after_retry s lib v i now) (sites.take n))
        0 ⟨0, 0, 0⟩ ((sites.getD n []).take k)).storage) ∧
      (∀ (n : Nat) (u : String),
        (u ∈ (run_sites v i target (pipeline_after_retry s lib v i now)
            (sites.take n)).imported ∨
          u ∈ (run_sites v i target (pipeline_after_retry s lib v i now)
            (sites.take n)).rejects) →
        ¬ u ∈ (candidate_loop v i target
          (run_sites v i target (pipeline_after_retry s lib v i now) (sites.take n))
          0 ⟨0, 0, 0⟩ (sites.getD n [])).verified) := by
  have h1 : DisjointSets (sync_existing_library s lib) := sync_disjoint s lib hd hlib
  have h2 : DisjointSets (pipeline_after_retry s lib v i now) := by
    refine retry_pass_disjoint (sync_existing_library s lib) v i now h1 ?_ ?_
    · rw [sync_queue_eq]
      exact hnodup
    · rw [sync_queue_eq, sync_rejects_eq]
      intro k hk
      obtain ⟨hk1, hk2, hk3⟩ := hkeys k hk
      refine ⟨?_, hk2⟩
      intro hmem
      rcases sync_imported_sub s lib hmem with h' | h'
      · exact hk1 h'
      · exact hk3 h'
  have h3 : ∀ n : Nat, DisjointSets
      (run_sites v i target (pipeline_after_retry s lib v i now) (sites.take n)) :=
    fun n => run_sites_disjoint v i target _ _ h2
  refine ⟨h1, h2, ?_, ?_⟩
  · intro n k
    exact candidate_loop_disjoint v i target _ 0 ⟨0, 0, 0⟩ _ (h3 n)
  · intro n u hu
    exact candidate_loop_skip v i target _ 0 ⟨0, 0, 0⟩ _ hu

/-- Witness for the amended C2: a store holding one exhausted retry
entry, with a library sync for a different URL, satisfies the
interference-freedom hypotheses, and the first two stages preserve the
invariant. -/
theorem c2_amended_invariant_witness :
    DisjointSets (sync_existing_library
        ⟨[], [], [("http://a/u", ⟨"HTTP 500", 3, some 0⟩)], [], [], 0⟩ ["http://a/lib"]) ∧
      DisjointSets (pipeline_after_retry
        ⟨[], [], [("http://a/u", ⟨"HTTP 500", 3, some 0⟩)], [], [], 0⟩ ["http://a/lib"]
        (fun _ => true) (fun _ => true) 10) := by
  have h := c2_amended_invariant
    ⟨[], [], [("http://a/u", ⟨"HTTP 500", 3, some 0⟩)], [], [], 0⟩ ["http://a/lib"]
    (fun _ => true) (fun _ => true) 10 5 []
    (by intro u hu; cases hu)
    (by intro u hu hs hr; cases hr)
    (by decide)
    (by
      intro k hk
      simp only [List.map_cons, List.map_nil, List.mem_singleton] at hk
      subst hk
      refine ⟨(by intro hm; cases hm), (by intro hm; cases hm), ?_⟩
      rintro ⟨hm, -⟩
      simp only [List.mem_singleton] at hm
      exact absurd hm (by decide))
  exact ⟨h.1, h.2.1⟩

/-! ### Claim C9 — the language-filter threshold -/

/-- Counterexample to claim C9 as stated ("skip the language check
exactly when fewer than 50 characters are available"): a verified
recipe page with exactly 50 characters of visible text — not fewer
than 50 — whose detected language (`fr`) differs from the configured
filter (`en`) is nevertheless accepted with no language-mismatch
rejection, because the code requires strictly more than 50 characters
(`len(text) > 50`) to run the check. -/
theorem c9_counterexample :
    ((⟨none, false,
        "abcdefghijabcdefghijabcdefghijabcdefghijabcdefghij"⟩ : PageDoc).text.toList.take
          1000).length = 50 ∧
      (fun _ => some "fr" : String → Option String)
          (String.mk ((⟨none, false,
            "abcdefghijabcdefghijabcdefghijabcdefghijabcdefghij"⟩ :
              PageDoc).text.toList.take 1000)) ≠ some "en" ∧
      verify_recipe (fun _ => some ⟨200, "\"@type\":\"Recipe\""⟩)
          (fun _ => ⟨none, false,
            "abcdefghijabcdefghijabcdefghijabcdefghijabcdefghij"⟩)
          (some "en") (fun _ => some "fr") "http://a/garlic" =
        (true,
          some ⟨none, false, "abcdefghijabcdefghijabcdefghijabcdefghijabcdefghij"⟩,
          none) := by
  refine ⟨by decide, by decide, by decide⟩

/-- Claim C9 as amended: when a language filter is configured and a
fetched page has passed recipe detection and the paranoid filters, the
verifier takes up to 1000 characters of visible text and skips the
language check exactly when **at most** 50 characters are available;
with strictly more than 50 characters it runs the (deterministic,
fixed-seed) detector and rejects with the language-mismatch reason
exactly when the detected language differs from the configured one (a
detector failure skips the check). -/
theorem c9_amended_language_threshold (fetch : String → Option FetchResult)
    (parse : String → PageDoc) (detectLang : String → Option String)
    (lf url body : String)
    (hf : fetch url = some ⟨200, body⟩)
    (hrec : (hasRecipeMarker body || (parse body).hasRecipeClass) = true)
    (hpar : is_paranoid_skip url (some (parse body)) = none) :
    (((parse body).text.toList.take 1000).length ≤ 50 →
      verify_recipe fetch parse (some lf) detectLang url = (true, some (parse body), none)) ∧
      (∀ dl, 50 < ((parse body).text.toList.take 1000).length →
        detectLang (String.mk ((parse body).text.toList.take 1000)) = some dl →
        (dl ≠ lf →
          verify_recipe fetch parse (some lf) detectLang url =
            (false, some (parse body),
              some ("Language mismatch: detected " ++ dl ++ ", want " ++ lf))) ∧
        (dl = lf →
          verify_recipe fetch parse (some lf) detectLang url =
            (true, some (parse body), none))) ∧
      (50 < ((parse body).text.toList.take 1000).length →
        detectLang (String.mk ((parse body).text.toList.take 1000)) = none →
        verify_recipe fetch parse (some lf) detectLang url =
          (true, some (parse body), none)) := by
  unfold verify_recipe
  rw [hf]
  simp only [ne_eq, not_true_eq_false, if_false, ite_false, ite_true, hrec, hpar]
  refine ⟨?_, ?_, ?_⟩
  · intro hle
    rw [if_neg (Nat.not_lt.mpr hle)]
  · intro dl hlen hdet
    rw [if_pos hlen, hdet]
    constructor
    · intro hne
      dsimp only
      rw [if_pos hne]
    · intro heq
      dsimp only
      rw [if_neg (by simp [heq])]
  · intro hlen hdet
    rw [if_pos hlen, hdet]

/-- Witness for the amended C9: a page with 51 characters of mismatched
text is rejected with the language-mismatch reason. -/
theorem c9_amended_language_threshold_witness :
    verify_recipe (fun _ => some ⟨200, "\"@type\":\"Recipe\""⟩)
        (fun _ => ⟨none, false,
          "abcdefghijabcdefghijabcdefghijabcdefghijabcdefghijX"⟩)
        (some "en") (fun _ => some "fr") "http://a/garlic" =
      (false,
        some ⟨none, false, "abcdefghijabcdefghijabcdefghijabcdefghijabcdefghijX"⟩,
        some ("Language mismatch: detected " ++ "fr" ++ ", want " ++ "en")) :=
  ((c9_amended_language_threshold (fun _ => some ⟨200, "\"@type\":\"Recipe\""⟩)
      (fun _ => ⟨none, false,
        "abcdefghijabcdefghijabcdefghijabcdefghijabcdefghijX"⟩)
      (fun _ => some "fr") "en" "http://a/garlic" "\"@type\":\"Recipe\""
      rfl (by decide) (by decide)).2.1 "fr" (by decide) rfl).1 (by decide)

end Dredger
